import Mathlib

/-!
Verification development for the scale-to-zero split-plane scaler.

The definitions below are shallow embeddings of the Rust sources:
  * `src/testapp-ebpf/src/main.rs`   — the in-kernel XDP packet classifier,
  * `src/testapp/src/kubernetes/…`   — the user-space controller, scaler and
    HPA suspension controller,
  * `src/testapp/src/utils.rs`       — packet processing and kernel-map sync.

Machine integers are modelled as `Nat`/`Int` (all arithmetic in the modelled
paths stays far from the 32/64-bit overflow boundaries), fallible code returns
`Option`/`Except`, and the kernel map / service registry are association lists
with HashMap semantics (insert replaces, keys are unique).
-/

namespace ScaleToZero

/-! ## Kernel classifier (src/testapp-ebpf/src/main.rs) -/

/-- XDP verdict codes from `aya_ebpf::bindings::xdp_action`. -/
def XDP_ABORTED : Nat := 0

def XDP_DROP : Nat := 1

def XDP_PASS : Nat := 2

/-- `testapp_common::PacketLog`: the fixed-layout perf-event record
`{ipv4_address: u32, action: u32}` emitted on `SCALE_REQUESTS`. -/
structure PacketLog where
  ipv4_address : Nat
  action : Nat
deriving DecidableEq, Repr

/-- `EthHdr::LEN` from `network_types`: 14 bytes. -/
def EthHdrLEN : Nat := 14

/-- `Ipv4Hdr::LEN` from `network_types`: 20 bytes. -/
def Ipv4HdrLEN : Nat := 20

/-- The big-endian `EtherType` value for IPv4 (`EtherType::Ipv4`). -/
def EtherTypeIpv4 : Nat := 0x0800

/-- A raw inbound frame: the byte buffer between `ctx.data()` and
`ctx.data_end()`. -/
structure Frame where
  bytes : List Nat
deriving Repr

def Frame.byte (f : Frame) (i : Nat) : Nat := f.bytes.getD i 0

/-- Big-endian `u16` read at byte offset `i` (`u16::from_be_bytes`). -/
def Frame.readU16BE (f : Frame) (i : Nat) : Nat :=
  f.byte i * 256 + f.byte (i + 1)

/-- Big-endian `u32` read at byte offset `i` (`u32::from_be_bytes`). -/
def Frame.readU32BE (f : Frame) (i : Nat) : Nat :=
  ((f.byte i * 256 + f.byte (i + 1)) * 256 + f.byte (i + 2)) * 256 + f.byte (i + 3)

/-- `ptr_at::<T>`: the bounds check guarding every header dereference.
`start = ctx.data()`, `dataEnd = ctx.data_end()`, `size = mem::size_of::<T>()`.
Returns the address of the header on success, `none` when the read would
cross `data_end`. -/
def ptr_at (start dataEnd offset size : Nat) : Option Nat :=
  if start + offset + size > dataEnd then none else some (start + offset)

/-- The read view of the kernel `SERVICE_LIST` map (`HashMap<u32, u32>`),
as used by `is_scalable_dst`. -/
abbrev ServiceList := Nat → Option Nat

/-- `is_scalable_dst`: constant-time lookup of the destination address. -/
def is_scalable_dst (m : ServiceList) (address : Nat) : Option Nat := m address

/-- `try_testapp`: parse Ethernet, then IPv4, look the destination up in
`SERVICE_LIST` and decide.  The returned pair is the XDP verdict together
with the list of `PacketLog` records emitted on the `SCALE_REQUESTS`
channel while handling this frame. -/
def try_testapp (m : ServiceList) (start : Nat) (f : Frame) :
    Except Unit (Nat × List PacketLog) :=
  let dataEnd := start + f.bytes.length
  match ptr_at start dataEnd 0 EthHdrLEN with
  | none => .error ()
  | some _ =>
    if f.readU16BE 12 ≠ EtherTypeIpv4 then .ok (XDP_PASS, [])
    else
      match ptr_at start dataEnd EthHdrLEN Ipv4HdrLEN with
      | none => .error ()
      | some _ =>
        let dst := f.readU32BE (EthHdrLEN + 16)
        match is_scalable_dst m dst with
        | some value =>
          if value = 0 then .ok (XDP_DROP, [⟨dst, 1⟩])
          else .ok (XDP_PASS, [⟨dst, 0⟩])
        | none => .ok (XDP_PASS, [])

/-- `testapp`: the XDP entry point; a parse error becomes `XDP_ABORTED`
(and no record is emitted, since the error fires before any `output`). -/
def testapp (m : ServiceList) (start : Nat) (f : Frame) : Nat × List PacketLog :=
  match try_testapp m start f with
  | .ok r => r
  | .error _ => (XDP_ABORTED, [])

/-- The classifier applied to a stream of frames: one independent
invocation per frame. -/
def processFrames (m : ServiceList) (start : Nat) (fs : List Frame) :
    List (Nat × List PacketLog) :=
  fs.map (testapp m start)

/-- C1: for every inbound IPv4 frame the verdict is a function of the
`SERVICE_LIST` lookup on the big-endian destination address: key absent →
PASS with no record; value 0 → one `{dst, action=1}` record and DROP;
value 1 → one `{dst, action=0}` record and PASS.  Non-IPv4 frames PASS
without a lookup (the verdict is the same under every map). -/
theorem C1_classifier_decision_table (m : ServiceList) (start : Nat) (f : Frame)
    (hlen : 14 ≤ f.bytes.length) :
    (f.readU16BE 12 ≠ EtherTypeIpv4 →
      ∀ m' : ServiceList, testapp m' start f = (XDP_PASS, [])) ∧
    (f.readU16BE 12 = EtherTypeIpv4 → 34 ≤ f.bytes.length →
      (is_scalable_dst m (f.readU32BE 30) = none →
        testapp m start f = (XDP_PASS, [])) ∧
      (is_scalable_dst m (f.readU32BE 30) = some 0 →
        testapp m start f = (XDP_DROP, [⟨f.readU32BE 30, 1⟩])) ∧
      (is_scalable_dst m (f.readU32BE 30) = some 1 →
        testapp m start f = (XDP_PASS, [⟨f.readU32BE 30, 0⟩]))) := by
  have h1 : ¬ (start + 0 + EthHdrLEN > start + f.bytes.length) := by
    simp only [EthHdrLEN]; omega
  constructor
  · intro hne m'
    simp only [testapp, try_testapp, ptr_at, if_neg h1, if_pos hne]
  · intro hip hlen34
    have h2 : ¬ (start + EthHdrLEN + Ipv4HdrLEN > start + f.bytes.length) := by
      simp only [EthHdrLEN, Ipv4HdrLEN]; omega
    have hipne : ¬ (f.readU16BE 12 ≠ EtherTypeIpv4) := by simp [hip]
    have hA : ¬ f.bytes.length < 14 := by omega
    have hB : ¬ start + f.bytes.length < start + 14 + Ipv4HdrLEN := by
      simp only [Ipv4HdrLEN]; omega
    refine ⟨?_, ?_, ?_⟩ <;> intro hlk <;>
      simp only [testapp, try_testapp, ptr_at, if_neg h1, if_neg hipne, if_neg h2,
        is_scalable_dst, EthHdrLEN, show (14 : Nat) + 16 = 30 from rfl] at hlk ⊢ <;>
      simp [hlk, hA, hB]

/-- Witness for C1 at a concrete IPv4 frame (dst = 10.0.0.1 = 0x0A000001)
under the map `{0x0A000001 ↦ 0}`. -/
theorem C1_classifier_decision_table_witness :
    let f : Frame := ⟨[0, 0, 0, 0, 0, 0, 0, 0, 0, 0, 0, 0, 0x08, 0x00,
                       0, 0, 0, 0, 0, 0, 0, 0, 0, 0, 0, 0, 0, 0, 0, 0,
                       0x0A, 0, 0, 1]⟩
    let m : ServiceList := fun k => if k = 0x0A000001 then some 0 else none
    testapp m 100 f = (XDP_DROP, [⟨0x0A000001, 1⟩]) := by
  intro f m
  have h := (C1_classifier_decision_table m 100 f (by decide)).2 (by decide) (by decide)
  have hd : f.readU32BE 30 = 0x0A000001 := by decide
  have := h.2.1 (by rw [hd]; rfl)
  rw [hd] at this
  exact this

/-- C8: every header read is bounds-checked (`ptr_at` succeeds only when
`start + offset + size ≤ data_end`); a frame whose Ethernet or IPv4 header
crosses the packet end yields `XDP_ABORTED` with no emitted record; and the
handling of a stream of frames is per-frame, so one malformed frame leaves
every other frame's handling unchanged. -/
theorem C8_bounds_checked_parsing :
    (∀ start dataEnd offset size p,
      ptr_at start dataEnd offset size = some p → start + offset + size ≤ dataEnd) ∧
    (∀ (m : ServiceList) start f, f.bytes.length < EthHdrLEN →
      testapp m start f = (XDP_ABORTED, [])) ∧
    (∀ (m : ServiceList) start f, f.readU16BE 12 = EtherTypeIpv4 →
      f.bytes.length < EthHdrLEN + Ipv4HdrLEN →
      testapp m start f = (XDP_ABORTED, [])) ∧
    (∀ (m : ServiceList) start fs1 f fs2,
      processFrames m start (fs1 ++ f :: fs2) =
        processFrames m start fs1 ++ testapp m start f :: processFrames m start fs2) := by
  refine ⟨?_, ?_, ?_, ?_⟩
  · intro start dataEnd offset size p h
    simp only [ptr_at] at h
    split at h
    · exact absurd h (by simp)
    · omega
  · intro m start f hshort
    have h1 : start + 0 + EthHdrLEN > start + f.bytes.length := by
      simp only [EthHdrLEN] at hshort ⊢; omega
    simp only [testapp, try_testapp, ptr_at, if_pos h1]
  · intro m start f hip hshort
    by_cases h1 : start + 0 + EthHdrLEN > start + f.bytes.length
    · simp only [testapp, try_testapp, ptr_at, if_pos h1]
    · have h2 : start + EthHdrLEN + Ipv4HdrLEN > start + f.bytes.length := by
        simp only [EthHdrLEN, Ipv4HdrLEN] at hshort ⊢; omega
      have hipne : ¬ (f.readU16BE 12 ≠ EtherTypeIpv4) := by simp [hip]
      simp only [testapp, try_testapp, ptr_at, if_neg h1, if_neg hipne, if_pos h2]
  · intro m start fs1 f fs2
    simp [processFrames]

/-- Witness for C8 at concrete inputs: a 10-byte frame (Ethernet header
crosses the end) is aborted, and a stream around it is handled per frame. -/
theorem C8_bounds_checked_parsing_witness :
    ptr_at 0 20 0 14 = some 0 ∧ (0 : Nat) + 0 + 14 ≤ 20 ∧
    testapp (fun _ => none) 0 ⟨[0, 0, 0, 0, 0, 0, 0, 0, 0, 0]⟩ = (XDP_ABORTED, []) := by
  refine ⟨by decide, ?_, ?_⟩
  · exact C8_bounds_checked_parsing.1 0 20 0 14 0 (by decide)
  · exact C8_bounds_checked_parsing.2.1 (fun _ => none) 0 ⟨[0, 0, 0, 0, 0, 0, 0, 0, 0, 0]⟩
      (by decide)

/-! ## Association-map model of `std::collections::HashMap`

`WATCHED_SERVICES`, `LAST_CALLED` and the kernel `SERVICE_LIST` are hash
maps.  They are modelled as association lists whose keys are unique;
`ainsert` replaces the binding of an existing key, `aremove` deletes it. -/

def aget {κ β : Type} [BEq κ] (r : List (κ × β)) (k : κ) : Option β :=
  (r.find? (fun p => p.1 == k)).map (·.2)

def ainsert {κ β : Type} [BEq κ] (r : List (κ × β)) (k : κ) (v : β) :
    List (κ × β) :=
  match r with
  | [] => [(k, v)]
  | p :: rest => if p.1 == k then (k, v) :: rest else p :: ainsert rest k v

def aremove {κ β : Type} [BEq κ] (r : List (κ × β)) (k : κ) : List (κ × β) :=
  r.filter (fun p => !(p.1 == k))

def akeys {κ β : Type} (r : List (κ × β)) : List κ := r.map (·.1)

theorem aget_nil {κ β : Type} [BEq κ] (k : κ) : aget ([] : List (κ × β)) k = none := rfl

theorem aget_cons {κ β : Type} [BEq κ] (p : κ × β) (rest : List (κ × β)) (k : κ) :
    aget (p :: rest) k = if p.1 == k then some p.2 else aget rest k := by
  by_cases h : (p.1 == k) = true
  · simp [aget, List.find?_cons, h]
  · simp only [Bool.not_eq_true] at h
    simp [aget, List.find?_cons, h]

theorem ainsert_cons {κ β : Type} [BEq κ] (p : κ × β) (rest : List (κ × β))
    (k : κ) (v : β) :
    ainsert (p :: rest) k v =
      if p.1 == k then (k, v) :: rest else p :: ainsert rest k v := rfl

theorem aremove_cons {κ β : Type} [BEq κ] (p : κ × β) (rest : List (κ × β)) (k : κ) :
    aremove (p :: rest) k =
      if p.1 == k then aremove rest k else p :: aremove rest k := by
  by_cases h : (p.1 == k) = true
  · simp [aremove, List.filter_cons, h]
  · simp only [Bool.not_eq_true] at h
    simp [aremove, List.filter_cons, h]

theorem aget_ainsert_self {κ β : Type} [BEq κ] [LawfulBEq κ]
    (r : List (κ × β)) (k : κ) (v : β) : aget (ainsert r k v) k = some v := by
  induction r with
  | nil => simp [ainsert, aget_cons, aget_nil]
  | cons p rest ih =>
    rw [ainsert_cons]
    by_cases h : p.1 = k
    · simp [h, aget_cons]
    · rw [if_neg (by simp [h]), aget_cons, if_neg (by simp [h])]
      exact ih

theorem aget_ainsert_ne {κ β : Type} [BEq κ] [LawfulBEq κ]
    (r : List (κ × β)) (k k' : κ) (v : β) (hne : k' ≠ k) :
    aget (ainsert r k v) k' = aget r k' := by
  have hkk' : (k == k') = false := by simp; exact fun e => hne e.symm
  induction r with
  | nil => simp [ainsert, aget_cons, aget_nil, hkk']
  | cons p rest ih =>
    rw [ainsert_cons]
    by_cases h : p.1 = k
    · have hpk' : (p.1 == k') = false := by rw [h]; exact hkk'
      rw [if_pos (by simp [h]), aget_cons, aget_cons, hkk', hpk']
      simp
    · rw [if_neg (by simp [h]), aget_cons, aget_cons]
      by_cases h' : (p.1 == k') = true
      · rw [if_pos h', if_pos h']
      · simp only [Bool.not_eq_true] at h'
        rw [if_neg (by simp [h']), if_neg (by simp [h'])]
        exact ih

theorem aget_aremove_self {κ β : Type} [BEq κ] [LawfulBEq κ]
    (r : List (κ × β)) (k : κ) : aget (aremove r k) k = none := by
  induction r with
  | nil => simp [aremove, aget_nil]
  | cons p rest ih =>
    rw [aremove_cons]
    by_cases h : p.1 = k
    · rw [if_pos (by simp [h])]; exact ih
    · rw [if_neg (by simp [h]), aget_cons, if_neg (by simp [h])]
      exact ih

theorem aget_aremove_ne {κ β : Type} [BEq κ] [LawfulBEq κ]
    (r : List (κ × β)) (k k' : κ) (hne : k' ≠ k) :
    aget (aremove r k) k' = aget r k' := by
  have hkk' : (k == k') = false := by simp; exact fun e => hne e.symm
  induction r with
  | nil => simp [aremove, aget_nil]
  | cons p rest ih =>
    rw [aremove_cons, aget_cons]
    by_cases h : p.1 = k
    · have hpk' : (p.1 == k') = false := by rw [h]; exact hkk'
      rw [if_pos (by simp [h]), hpk']
      simp only [Bool.false_eq_true, if_false]
      exact ih
    · rw [if_neg (by simp [h]), aget_cons]
      by_cases h' : (p.1 == k') = true
      · rw [if_pos h', if_pos h']
      · simp only [Bool.not_eq_true] at h'
        rw [if_neg (by simp [h']), if_neg (by simp [h'])]
        exact ih

theorem aget_eq_none_of_not_mem_akeys {κ β : Type} [BEq κ] [LawfulBEq κ]
    (r : List (κ × β)) (k : κ) (h : k ∉ akeys r) : aget r k = none := by
  induction r with
  | nil => rfl
  | cons p rest ih =>
    simp only [akeys, List.map_cons, List.mem_cons] at h
    push_neg at h
    rw [aget_cons, if_neg (by simp; exact fun e => h.1 e.symm)]
    exact ih (by simpa [akeys] using h.2)

theorem mem_akeys_of_aget_isSome {κ β : Type} [BEq κ] [LawfulBEq κ]
    (r : List (κ × β)) (k : κ) (h : (aget r k).isSome) : k ∈ akeys r := by
  by_contra hmem
  rw [aget_eq_none_of_not_mem_akeys r k hmem] at h
  simp at h

/-! ## String helpers

Rust's `str::split(char)` and `str::trim`, modelled structurally on the
character list of the string (Lean's own `String.splitOn` / `String.trim`
are equivalent here but are not kernel-reducible). -/

/-- `str::split(sep)` on a character list: `""` yields `[""]`, separators
at the ends yield empty fields. -/
def splitOnChar (sep : Char) (cs : List Char) : List (List Char) :=
  match cs with
  | [] => [[]]
  | c :: rest =>
    let r := splitOnChar sep rest
    if c = sep then [] :: r
    else
      match r with
      | [] => [[c]]
      | g :: gs => (c :: g) :: gs

/-- `str::split(sep)` as a `String` operation. -/
def splitString (sep : Char) (s : String) : List String :=
  (splitOnChar sep s.data).map (fun cs => { data := cs })

/-- Drop leading whitespace. -/
def trimLeft (cs : List Char) : List Char :=
  match cs with
  | [] => []
  | c :: rest => if c.isWhitespace then trimLeft rest else c :: rest

/-- `str::trim` (ASCII whitespace; the services' annotation values contain
no exotic Unicode whitespace). -/
def trimString (s : String) : String :=
  { data := (trimLeft (trimLeft s.data).reverse).reverse }

/-! ## Service registry data model (src/testapp/src/kubernetes/models.rs) -/

/-- `HPAConfig`: the captured autoscaler configuration.  `metrics` and
`behavior` hold the serialized JSON payloads verbatim (`Option<String>`). -/
structure HPAConfig where
  min_replicas : Option Int
  max_replicas : Int
  target_cpu_utilization_percentage : Option Int
  metrics : Option String
  behavior : Option String
deriving DecidableEq, Repr

/-- `ServiceData`: one registry entry per tracked service IP. -/
structure ServiceData where
  scale_down_time : Int
  last_packet_time : Int
  kind : String
  name : String
  namespace_ : String
  backend_available : Bool
  dependencies : List String
  dependents : List String
  hpa_enabled : Bool
  hpa_name : Option String
  hpa_deleted : Bool
  hpa_config : Option HPAConfig
  scaling_priority : Int
deriving DecidableEq, Repr

/-- `WATCHED_SERVICES`: the process-wide service registry. -/
abbrev Registry := List (String × ServiceData)

/-- `LAST_CALLED`: per-IP time of the last scale-up call that passed the
rate-limit check (`SystemTime` modelled as seconds since epoch). -/
abbrev LastCalled := List (String × Nat)

/-! ## Scale-down pump (src/testapp/src/kubernetes/scaler.rs, `scale_down`) -/

/-- A `replicas` patch issued to the cluster API. -/
structure PatchAction where
  kind : String
  name : String
  namespace_ : String
  replicas : Int
deriving DecidableEq, Repr

/-- Outcome of the external `delete_hpa(namespace, hpa_name)` call as seen
by `delete_hpa_for_service`: `Ok(Some(config))`, `Ok(None)` (object
absent), or `Err`. -/
inductive HpaDeleteResult where
  | found (cfg : HPAConfig)
  | missing
  | failed
deriving DecidableEq, Repr

/-- Registry effect of `delete_hpa_for_service(service_ip)`
(src/testapp/src/kubernetes/hpa_controller.rs, lines 180-213).  The
external API call's outcome is supplied by `ext`. -/
def delete_hpa_for_service (ext : String → HpaDeleteResult) (reg : Registry)
    (service_ip : String) : Registry :=
  match aget reg service_ip with
  | none => reg
  | some sd =>
    if sd.hpa_enabled ∧ ¬sd.hpa_deleted ∧ sd.hpa_name.isSome then
      match ext service_ip with
      | .found cfg =>
        ainsert reg service_ip { sd with hpa_deleted := true, hpa_config := some cfg }
      | .missing => ainsert reg service_ip { sd with hpa_deleted := true }
      | .failed => reg
    else reg

/-- The orphaned-autoscaler branch of a scale-down tick (scaler.rs lines
45-53): an HPA-enabled entry that is already scaled down but whose HPA is
not yet deleted has its HPA deleted. -/
def orphanHpaStep (ext : String → HpaDeleteResult) (key : String)
    (s : ServiceData) (reg : Registry) : Registry :=
  if s.hpa_enabled ∧ ¬s.backend_available ∧ ¬s.hpa_deleted then
    delete_hpa_for_service ext reg key
  else reg

/-- The direct-scaling branch of a scale-down tick for one snapshotted
entry (scaler.rs lines 55-109): when
`now - last_packet_time > scale_down_time && backend_available`, flip the
clone's `backend_available` to `false`, delete the HPA when applicable,
patch the workload to `replicas = 0` and write the clone back; otherwise
do nothing.  The cluster patch is modelled as an emitted `PatchAction`
(happy path: the `.await?` does not fail). -/
def directScaleStep (ext : String → HpaDeleteResult) (now : Int) (key : String)
    (s : ServiceData) (reg : Registry) : Registry × List PatchAction :=
  if now - s.last_packet_time > s.scale_down_time ∧ s.backend_available then
    let s1 := { s with backend_available := false }
    let reg1 := if s.hpa_enabled ∧ ¬s.hpa_deleted
      then delete_hpa_for_service ext reg key else reg
    let patches :=
      if s.kind == "deployment" then [⟨s.kind, s.name, s.namespace_, 0⟩]
      else if s.kind == "statefulset" then [⟨s.kind, s.name, s.namespace_, 0⟩]
      else []
    (ainsert reg1 key s1, patches)
  else (reg, [])

/-- The snapshot visit order of one scale-down tick: all `(key, service)`
pairs sorted ascending by `scaling_priority` (scaler.rs lines 23-32;
`sort_by_key` is a stable sort, so any stable sort gives its output). -/
def scale_down_order (reg : Registry) : List (String × ServiceData) :=
  List.insertionSort (fun a b => a.2.scaling_priority ≤ b.2.scaling_priority) reg

/-- One full iteration of the `scale_down` loop over the sorted snapshot. -/
def scale_down_tick (ext : String → HpaDeleteResult) (now : Int) (reg : Registry) :
    Registry × List PatchAction :=
  (scale_down_order reg).foldl
    (fun acc kv =>
      let reg1 := orphanHpaStep ext kv.1 kv.2 acc.1
      let step := directScaleStep ext now kv.1 kv.2 reg1
      (step.1, acc.2 ++ step.2))
    (reg, [])

/-- C2: in a scale-down tick, a snapshotted entry is patched to
`replicas = 0` with its `backend_available` flag flipped to `false` and
written back exactly when `now - last_packet_time > scale_down_time` and
`backend_available` held; an entry failing the condition is left untouched
by the direct-scaling branch. -/
theorem C2_scale_down_condition (ext : String → HpaDeleteResult) (now : Int)
    (key : String) (s : ServiceData) (reg : Registry)
    (hkind : s.kind = "deployment" ∨ s.kind = "statefulset") :
    (now - s.last_packet_time > s.scale_down_time ∧ s.backend_available →
      aget (directScaleStep ext now key s reg).1 key =
        some { s with backend_available := false } ∧
      (directScaleStep ext now key s reg).2 = [⟨s.kind, s.name, s.namespace_, 0⟩]) ∧
    (¬ (now - s.last_packet_time > s.scale_down_time ∧ s.backend_available) →
      directScaleStep ext now key s reg = (reg, [])) := by
  constructor
  · intro hcond
    have hpatch :
        (if s.kind == "deployment" then [PatchAction.mk s.kind s.name s.namespace_ 0]
         else if s.kind == "statefulset" then [PatchAction.mk s.kind s.name s.namespace_ 0]
         else []) = [PatchAction.mk s.kind s.name s.namespace_ 0] := by
      rcases hkind with h | h <;> simp [h]
    constructor
    · simp only [directScaleStep, if_pos hcond]
      exact aget_ainsert_self _ _ _
    · simp only [directScaleStep, if_pos hcond]
      exact hpatch
  · intro hcond
    simp only [directScaleStep, if_neg hcond]

/-- Witness for C2: a concrete idle available deployment entry is flipped
and patched; the same entry with fresh traffic is left untouched. -/
theorem C2_scale_down_condition_witness :
    let sIdle : ServiceData :=
      ⟨60, 0, "deployment", "app", "default", true, [], [], false, none, false, none, 50⟩
    let sFresh : ServiceData := { sIdle with last_packet_time := 100 }
    let reg : Registry := [("10.0.0.1", sIdle)]
    (aget (directScaleStep (fun _ => .missing) 100 "10.0.0.1" sIdle reg).1 "10.0.0.1" =
       some { sIdle with backend_available := false } ∧
     (directScaleStep (fun _ => .missing) 100 "10.0.0.1" sIdle reg).2 =
       [⟨"deployment", "app", "default", 0⟩]) ∧
    directScaleStep (fun _ => .missing) 100 "10.0.0.1" sFresh reg = (reg, []) := by
  intro sIdle sFresh reg
  constructor
  · exact (C2_scale_down_condition (fun _ => .missing) 100 "10.0.0.1" sIdle reg
      (Or.inl rfl)).1 (by constructor <;> decide)
  · exact (C2_scale_down_condition (fun _ => .missing) 100 "10.0.0.1" sFresh reg
      (Or.inl rfl)).2 (by intro h; exact absurd h.1 (by decide))

/-! ## Scale-up (src/testapp/src/kubernetes/scaler.rs, `scale_up`) -/

/-- `find_service_ip_by_target`'s match test for one registry entry:
an exact `namespace/name` pair, or a bare name in any namespace. -/
def matchesTarget (target : String) (sd : ServiceData) : Bool :=
  if target.data.contains '/' then
    let parts := splitString '/' target
    if parts.length == 2 then
      sd.name == parts.getD 1 "" && sd.namespace_ == parts.getD 0 ""
    else false
  else sd.name == target

/-- `find_service_ip_by_target` (scaler.rs lines 201-232): IP key match
first, then the first name / namespace-name match. -/
def find_service_ip_by_target (reg : Registry) (target : String) : Option String :=
  if (aget reg target).isSome then some target
  else (reg.find? (fun p => matchesTarget target p.2)).map (·.1)

/-- The dependency / dependent collection loops of `scale_up` (lines
145-177): resolve each target and keep it when it is registered and
currently unavailable. -/
def collectUnavailable (reg : Registry) (targets : List String) :
    List (String × ServiceData) :=
  targets.filterMap (fun t =>
    match find_service_ip_by_target reg t with
    | none => none
    | some ip =>
      match aget reg ip with
      | none => none
      | some sd => if sd.backend_available then none else some (ip, sd))

/-- The `services_to_scale` list of one `scale_up(service_ip)` invocation,
in visit order: triggering service plus unavailable dependencies and
dependents, sorted descending by `scaling_priority`
(`sort_by_key(Reverse(scaling_priority))`, line 180). -/
def scale_up_collect (reg : Registry) (service_ip : String)
    (service : ServiceData) : List (String × ServiceData) :=
  List.insertionSort (fun a b => b.2.scaling_priority ≤ a.2.scaling_priority)
    (((service_ip, service) :: collectUnavailable reg service.dependencies) ++
      collectUnavailable reg service.dependents)

/-- Result of the decision stages of `scale_up` (lines 115-198). -/
inductive ScaleUpResult where
  | timeErr
  | rateLimited (msg : String)
  | panicked
  | ok (toScale : List (String × ServiceData)) (last : LastCalled)
deriving DecidableEq, Repr

/-- The literal rate-limit error message from scaler.rs lines 121-123. -/
def rate_limit_msg : String :=
  "Rate Limited: Function can only be called once every 5 seconds per service_ip"

/-- The post-rate-limit registry lookup
(`watched_services.get(&service_ip).unwrap()`, line 136): a missing entry
panics, otherwise the traversal list is computed. -/
def scale_up_lookup (reg : Registry) (service_ip : String)
    (last : LastCalled) : ScaleUpResult :=
  match aget reg service_ip with
  | none => .panicked
  | some service => .ok (scale_up_collect reg service_ip service) last

/-- `scale_up`'s decision stages: the per-IP rate limit (lines 116-127:
within 5 seconds of the last call that passed the check → the distinguished
error; `duration_since` failure propagates via `?`), then the registry
lookup and ordered collection.  Only a call that passes the check records
its own time in `LAST_CALLED`. -/
def scale_up_plan (reg : Registry) (last : LastCalled) (service_ip : String)
    (now : Nat) : ScaleUpResult :=
  match aget last service_ip with
  | some t =>
    if now < t then .timeErr
    else if now - t < 5 then .rateLimited rate_limit_msg
    else scale_up_lookup reg service_ip (ainsert last service_ip now)
  | none => scale_up_lookup reg service_ip (ainsert last service_ip now)

/-- Whether a `scale_up` call got past the rate-limit check. -/
def ScaleUpResult.passedRateLimit : ScaleUpResult → Bool
  | .timeErr => false
  | .rateLimited _ => false
  | .panicked => true
  | .ok _ _ => true

/-- The rate-limit check in isolation. -/
def rateCheckPasses (last : LastCalled) (service_ip : String) (now : Nat) : Bool :=
  match aget last service_ip with
  | some t => !(now < t) && !(now - t < 5)
  | none => true

theorem passedRateLimit_scale_up_lookup (reg : Registry) (ip : String)
    (l : LastCalled) : (scale_up_lookup reg ip l).passedRateLimit = true := by
  unfold scale_up_lookup
  cases aget reg ip <;> rfl

set_option maxRecDepth 4096 in
/-- C3: a `scale_up(ip)` call made strictly less than 5 seconds after the
last call that passed the rate-limit check returns the `RateLimited` error,
whose message starts with `"Rate Limited: Function "`; a call 5 or more
seconds after it passes the check; and from a clean state calls at
t = 0, 3, 6 yield success, RateLimited, success. -/
theorem C3_rate_limit (reg : Registry) (last : LastCalled) (ip : String)
    (now t : Nat) :
    (aget last ip = some t → t ≤ now → now - t < 5 →
      scale_up_plan reg last ip now = .rateLimited rate_limit_msg ∧
      "Rate Limited: Function ".data.isPrefixOf rate_limit_msg.data = true) ∧
    (aget last ip = some t → t + 5 ≤ now →
      (scale_up_plan reg last ip now).passedRateLimit = true) ∧
    (aget last ip = none →
      (scale_up_plan reg last ip now).passedRateLimit = true) ∧
    (let sd : ServiceData :=
      ⟨60, 0, "deployment", "app", "default", false, [], [], false, none, false, none, 50⟩
     let reg0 : Registry := [("10.0.0.1", sd)]
     scale_up_plan reg0 [] "10.0.0.1" 0 =
       .ok [("10.0.0.1", sd)] [("10.0.0.1", 0)] ∧
     scale_up_plan reg0 [("10.0.0.1", 0)] "10.0.0.1" 3 =
       .rateLimited rate_limit_msg ∧
     scale_up_plan reg0 [("10.0.0.1", 0)] "10.0.0.1" 6 =
       .ok [("10.0.0.1", sd)] [("10.0.0.1", 6)]) := by
  refine ⟨?_, ?_, ?_, ?_⟩
  · intro h hle hlt
    refine ⟨?_, by decide⟩
    simp only [scale_up_plan, h, if_neg (by omega : ¬ now < t), if_pos hlt]
  · intro h hge
    simp only [scale_up_plan, h, if_neg (by omega : ¬ now < t),
      if_neg (by omega : ¬ now - t < 5)]
    exact passedRateLimit_scale_up_lookup _ _ _
  · intro h
    simp only [scale_up_plan, h]
    exact passedRateLimit_scale_up_lookup _ _ _
  · refine ⟨by decide, by decide, by decide⟩

/-- Witness for C3 at concrete inputs (calls at t = 0, 3, 6 for
`"10.0.0.1"`). -/
theorem C3_rate_limit_witness :
    let sd : ServiceData :=
      ⟨60, 0, "deployment", "app", "default", false, [], [], false, none, false, none, 50⟩
    let reg0 : Registry := [("10.0.0.1", sd)]
    scale_up_plan reg0 [("10.0.0.1", 0)] "10.0.0.1" 3 =
      .rateLimited rate_limit_msg ∧
    "Rate Limited: Function ".data.isPrefixOf rate_limit_msg.data = true ∧
    (scale_up_plan reg0 [("10.0.0.1", 0)] "10.0.0.1" 6).passedRateLimit = true := by
  intro sd reg0
  have h1 := (C3_rate_limit reg0 [("10.0.0.1", 0)] "10.0.0.1" 3 0).1
    (by decide) (by decide) (by decide)
  have h2 := (C3_rate_limit reg0 [("10.0.0.1", 0)] "10.0.0.1" 6 0).2.1
    (by decide) (by decide)
  exact ⟨h1.1, h1.2, h2⟩

/-- C6: the scale-up traversal list is sorted non-increasing by
`scaling_priority` (children first), and the scale-down tick's snapshot is
visited non-decreasing by `scaling_priority` (parents first). -/
theorem C6_traversal_priority_order :
    (∀ (reg : Registry) (ip : String) (service : ServiceData),
      (scale_up_collect reg ip service).Pairwise
        (fun a b => b.2.scaling_priority ≤ a.2.scaling_priority)) ∧
    (∀ reg : Registry,
      (scale_down_order reg).Pairwise
        (fun a b => a.2.scaling_priority ≤ b.2.scaling_priority)) := by
  constructor
  · intro reg ip service
    haveI : IsTotal (String × ServiceData)
        (fun a b => b.2.scaling_priority ≤ a.2.scaling_priority) :=
      ⟨fun a b => (le_total a.2.scaling_priority b.2.scaling_priority).symm⟩
    haveI : IsTrans (String × ServiceData)
        (fun a b => b.2.scaling_priority ≤ a.2.scaling_priority) :=
      ⟨fun _ _ _ h1 h2 => le_trans h2 h1⟩
    exact List.sorted_insertionSort _ _
  · intro reg
    haveI : IsTotal (String × ServiceData)
        (fun a b => a.2.scaling_priority ≤ b.2.scaling_priority) :=
      ⟨fun a b => le_total a.2.scaling_priority b.2.scaling_priority⟩
    haveI : IsTrans (String × ServiceData)
        (fun a b => a.2.scaling_priority ≤ b.2.scaling_priority) :=
      ⟨fun _ _ _ h1 h2 => le_trans h1 h2⟩
    exact List.sorted_insertionSort _ _

/-- C10: `scale_up` has the unstated precondition that the triggering IP
is registered: past the rate-limit check, a missing registry entry panics
(`unwrap` of `None`), and a registered entry never does. -/
theorem C10_scale_up_registered_precondition (reg : Registry)
    (last : LastCalled) (ip : String) (now : Nat)
    (hrate : rateCheckPasses last ip now = true) :
    (aget reg ip = none → scale_up_plan reg last ip now = .panicked) ∧
    (∀ s, aget reg ip = some s →
      scale_up_plan reg last ip now =
        .ok (scale_up_collect reg ip s) (ainsert last ip now)) := by
  have hplan : scale_up_plan reg last ip now =
      scale_up_lookup reg ip (ainsert last ip now) := by
    unfold rateCheckPasses at hrate
    unfold scale_up_plan
    cases hl : aget last ip with
    | none => rfl
    | some t =>
      rw [hl] at hrate
      simp only [Bool.and_eq_true, Bool.not_eq_true'] at hrate
      obtain ⟨h1, h2⟩ := hrate
      simp only [decide_eq_false_iff_not] at h1 h2
      simp only [if_neg h1, if_neg h2]
  constructor
  · intro h
    rw [hplan]; unfold scale_up_lookup; rw [h]
  · intro s h
    rw [hplan]; unfold scale_up_lookup; rw [h]

/-- Witness for C10: with an empty rate-limit map, scaling an
unregistered IP panics and a registered one does not. -/
theorem C10_scale_up_registered_precondition_witness :
    let sd : ServiceData :=
      ⟨60, 0, "deployment", "app", "default", false, [], [], false, none, false, none, 50⟩
    scale_up_plan [] [] "10.0.0.9" 0 = .panicked ∧
    scale_up_plan [("10.0.0.1", sd)] [] "10.0.0.1" 0 =
      .ok (scale_up_collect [("10.0.0.1", sd)] "10.0.0.1" sd)
        (ainsert [] "10.0.0.1" 0) := by
  intro sd
  constructor
  · exact (C10_scale_up_registered_precondition [] [] "10.0.0.9" 0 (by decide)).1 rfl
  · exact (C10_scale_up_registered_precondition [("10.0.0.1", sd)] [] "10.0.0.1" 0
      (by decide)).2 sd (by decide)

/-! ## Workload reconciler (src/testapp/src/kubernetes/controller.rs) -/

/-- The sign prefix handling of Rust's `str::parse::<iN>`. -/
def parseSign (cs : List Char) : Int × List Char :=
  match cs with
  | '-' :: rest => (-1, rest)
  | '+' :: rest => (1, rest)
  | _ => (1, cs)

def digitsVal (cs : List Char) : Nat :=
  cs.foldl (fun acc c => acc * 10 + (c.toNat - 48)) 0

/-- Rust `str::parse` for a signed radix-10 integer type with value range
`[lo, hi]`: optional sign, at least one digit, no other characters, error
on overflow. -/
def parseIntRadix10 (lo hi : Int) (s : String) : Option Int :=
  let sd := parseSign s.data
  if sd.2.isEmpty then none
  else if sd.2.all Char.isDigit then
    let v : Int := sd.1 * (digitsVal sd.2 : Int)
    if v < lo ∨ v > hi then none else some v
  else none

/-- `str::parse::<i32>`. -/
def parseI32 (s : String) : Option Int := parseIntRadix10 (-(2 ^ 31)) (2 ^ 31 - 1) s

/-- `str::parse::<i64>`. -/
def parseI64 (s : String) : Option Int := parseIntRadix10 (-(2 ^ 63)) (2 ^ 63 - 1) s

/-- A watched `k8s_openapi` `Service` object as the controller reads it:
name, namespace, `spec.cluster_ip`, and the annotation map. -/
structure KubeService where
  name : String
  namespace_ : String
  cluster_ip : Option String
  annotations : List (String × String)
deriving DecidableEq, Repr

def KubeService.getAnnotation (s : KubeService) (k : String) : Option String :=
  aget s.annotations k

/-- ` parse_dependencies_annotation` (controller.rs lines 321-333):
comma-split, trim, drop empties. -/
def parse_dependencies_annotation (s : KubeService) : List String :=
  match s.getAnnotation "scale-to-zero/dependencies" with
  | some deps_str =>
    ((splitString ',' deps_str).map trimString).filter (fun d => !d.data.isEmpty)
  | none => []

/-- ` parse_dependents_annotation` (controller.rs lines 335-347). -/
def parse_dependents_annotation (s : KubeService) : List String :=
  match s.getAnnotation "scale-to-zero/dependents" with
  | some deps_str =>
    ((splitString ',' deps_str).map trimString).filter (fun d => !d.data.isEmpty)
  | none => []

/-- `calculate_scaling_priority` (controller.rs lines 349-373): an explicit
parsable `scaling-priority` annotation wins; otherwise
`10 + |deps|·5` when there are dependencies, else `90 + |dependents|·5`
when there are dependents, else `50`. -/
def calculate_scaling_priority (s : KubeService) : Int :=
  match (s.getAnnotation "scale-to-zero/scaling-priority").bind parseI32 with
  | some priority => priority
  | none =>
    let dependencies := parse_dependencies_annotation s
    let dependents := parse_dependents_annotation s
    if dependencies.length > 0 then 10 + (dependencies.length : Int) * 5
    else if dependents.length > 0 then 90 + (dependents.length : Int) * 5
    else 50

/-- Outcome of the service-event arm of `kube_event_watcher`
(controller.rs lines 60-216), up to the cluster-API workload resolution. -/
inductive ServiceEventOutcome where
  | skipped
  | panicked
  | errored
  | proceeded (workload_type workload_name target_namespace : String)
      (scale_down_time : Int) (service_ip : String)
deriving DecidableEq, Repr

/-- The service-event decision sequence of `kube_event_watcher`:
the annotation guard (lines 62-71: skip only when BOTH annotations are
absent), the `reference` read via `.unwrap()` (line 74-78: a missing
annotation panics), the 2- or 3-part reference split (lines 84-106:
other arities warn and skip), the `scale-down-time` read via `.unwrap()`
and `parse::<i64>` whose failure propagates with `?` (lines 109-114), and
the `cluster_ip` extraction whose failure propagates with `?`
(lines 116-126). -/
def handleServiceEvent (s : KubeService) : ServiceEventOutcome :=
  if (s.getAnnotation "scale-to-zero/reference").isNone ∧
      (s.getAnnotation "scale-to-zero/scale-down-time").isNone then .skipped
  else
    match s.getAnnotation "scale-to-zero/reference" with
    | none => .panicked
    | some workload_ref =>
      let parts := splitString '/' workload_ref
      if parts.length = 2 ∨ parts.length = 3 then
        let workload_type := parts.getD 0 ""
        let workload_name := if parts.length = 2 then parts.getD 1 "" else parts.getD 2 ""
        let target_namespace := if parts.length = 2 then s.namespace_ else parts.getD 1 ""
        match s.getAnnotation "scale-to-zero/scale-down-time" with
        | none => .panicked
        | some sdt =>
          match parseI64 sdt with
          | none => .errored
          | some scale_down_time =>
            match s.cluster_ip with
            | none => .errored
            | some service_ip =>
              .proceeded workload_type workload_name target_namespace
                scale_down_time service_ip
      else .skipped

/-- C4 (code bug): a service event lacking BOTH annotations is skipped, but
an event carrying exactly one of `scale-to-zero/reference` /
`scale-to-zero/scale-down-time` passes the `&&` guard and then panics on
the `.unwrap()` of the missing annotation instead of being skipped. -/
theorem C4_annotation_guard_panics_on_single_annotation :
    handleServiceEvent ⟨"svc", "default", some "10.0.0.1", []⟩ = .skipped ∧
    handleServiceEvent ⟨"svc", "default", some "10.0.0.1",
      [("scale-to-zero/reference", "deployment/app")]⟩ = .panicked ∧
    handleServiceEvent ⟨"svc", "default", some "10.0.0.1",
      [("scale-to-zero/scale-down-time", "60")]⟩ = .panicked ∧
    handleServiceEvent ⟨"svc", "default", some "10.0.0.1",
      [("scale-to-zero/reference", "deployment/app"),
       ("scale-to-zero/scale-down-time", "60")]⟩ =
      .proceeded "deployment" "app" "default" 60 "10.0.0.1" := by
  refine ⟨rfl, rfl, rfl, ?_⟩
  decide

/-- C5: the computed scaling priority is the parsed explicit annotation
when present and parsable; otherwise `10 + 5·|deps|` when dependencies are
non-empty, else `90 + 5·|dependents|` when dependents are non-empty, else
`50`; and it is a pure function of the annotation map. -/
theorem C5_scaling_priority (s : KubeService) :
    (∀ p v, s.getAnnotation "scale-to-zero/scaling-priority" = some p →
      parseI32 p = some v → calculate_scaling_priority s = v) ∧
    ((s.getAnnotation "scale-to-zero/scaling-priority").bind parseI32 = none →
      ( parse_dependencies_annotation s ≠ [] →
        calculate_scaling_priority s =
          10 + 5 * (( parse_dependencies_annotation s).length : Int)) ∧
      ( parse_dependencies_annotation s = [] → parse_dependents_annotation s ≠ [] →
        calculate_scaling_priority s =
          90 + 5 * (( parse_dependents_annotation s).length : Int)) ∧
      ( parse_dependencies_annotation s = [] → parse_dependents_annotation s = [] →
        calculate_scaling_priority s = 50)) ∧
    (∀ s' : KubeService, s.annotations = s'.annotations →
      calculate_scaling_priority s = calculate_scaling_priority s') := by
  refine ⟨?_, ?_, ?_⟩
  · intro p v hp hv
    simp only [calculate_scaling_priority, hp,
      show (some p).bind parseI32 = parseI32 p from rfl, hv]
  · intro hnone
    refine ⟨?_, ?_, ?_⟩
    · intro hdeps
      have hpos : ( parse_dependencies_annotation s).length > 0 :=
        List.length_pos.mpr hdeps
      simp only [calculate_scaling_priority, hnone, if_pos hpos]
      ring
    · intro hdeps hdents
      have hz : ¬ ( parse_dependencies_annotation s).length > 0 := by
        simp [hdeps]
      have hpos : ( parse_dependents_annotation s).length > 0 :=
        List.length_pos.mpr hdents
      simp only [calculate_scaling_priority, hnone, if_neg hz, if_pos hpos]
      ring
    · intro hdeps hdents
      simp [calculate_scaling_priority, hnone, hdeps, hdents]
  · intro s' hann
    simp only [calculate_scaling_priority, parse_dependencies_annotation,
      parse_dependents_annotation, KubeService.getAnnotation, hann]

/-- Witness for C5 at concrete services: an explicit priority annotation
of `"7"`, a service with two dependencies, and a bare service. -/
theorem C5_scaling_priority_witness :
    let sExplicit : KubeService :=
      ⟨"a", "default", some "10.0.0.1", [("scale-to-zero/scaling-priority", "7")]⟩
    let sDeps : KubeService :=
      ⟨"b", "default", some "10.0.0.2", [("scale-to-zero/dependencies", "x, y")]⟩
    let sBare : KubeService := ⟨"c", "default", some "10.0.0.3", []⟩
    calculate_scaling_priority sExplicit = 7 ∧
    calculate_scaling_priority sDeps = 20 ∧
    calculate_scaling_priority sBare = 50 := by
  intro sExplicit sDeps sBare
  refine ⟨?_, ?_, ?_⟩
  · exact (C5_scaling_priority sExplicit).1 "7" 7 rfl (by decide)
  · have h := ((C5_scaling_priority sDeps).2.1 (by decide)).1 (by decide)
    rw [h]; decide
  · exact ((C5_scaling_priority sBare).2.1 (by decide)).2.2 rfl rfl

/-! ## Kernel-map sync (src/testapp/src/utils.rs, `sync_data`) -/

/-- The user-space handle on the kernel `SERVICE_LIST` map. -/
abbrev KMap := List (Nat × Nat)

/-- `pod_ips`: the desired kernel map contents built from the registry
(utils.rs lines 157-167).  The snapshot is keyed by the `u32` of each
service IP (`k.parse::<Ipv4Addr>().unwrap().into()`; dotted-quad parsing
is injective, so distinct registry keys give distinct `u32` keys). -/
def buildPodIps (snap : List (Nat × ServiceData)) : KMap :=
  snap.map (fun p => (p.1, if p.2.backend_available then 1 else 0))

/-- The first `sync_data` loop body (lines 169-182): upsert a desired pair
that is absent from or mismatched in the kernel map. -/
def upsertStep (m : KMap) (kv : Nat × Nat) : KMap :=
  match aget m kv.1 with
  | some old_value => if old_value ≠ kv.2 then ainsert m kv.1 kv.2 else m
  | none => ainsert m kv.1 kv.2

/-- The second `sync_data` loop body (lines 184-197): remove a kernel-map
key that is not desired. -/
def removeStep (pod_ips : KMap) (m : KMap) (k : Nat) : KMap :=
  if (aget pod_ips k).isSome then m else aremove m k

/-- `sync_data`: upsert every desired pair, then iterate the kernel map's
keys and drop the stale ones. -/
def sync_data (snap : List (Nat × ServiceData)) (m : KMap) : KMap :=
  let pod_ips := buildPodIps snap
  let m1 := pod_ips.foldl upsertStep m
  (akeys m1).foldl (removeStep pod_ips) m1

theorem aget_upsertStep_ne (m : KMap) (kv : Nat × Nat) (k : Nat)
    (hne : k ≠ kv.1) : aget (upsertStep m kv) k = aget m k := by
  cases hm : aget m kv.1 with
  | none =>
    simp only [upsertStep, hm]
    exact aget_ainsert_ne m kv.1 k kv.2 hne
  | some old =>
    by_cases h : old ≠ kv.2
    · simp only [upsertStep, hm, if_pos h]
      exact aget_ainsert_ne m kv.1 k kv.2 hne
    · simp only [upsertStep, hm, if_neg h]

theorem aget_upsertStep_self (m : KMap) (kv : Nat × Nat) :
    aget (upsertStep m kv) kv.1 = some kv.2 := by
  cases hm : aget m kv.1 with
  | none =>
    simp only [upsertStep, hm]
    exact aget_ainsert_self m kv.1 kv.2
  | some old =>
    by_cases h : old ≠ kv.2
    · simp only [upsertStep, hm, if_pos h]
      exact aget_ainsert_self m kv.1 kv.2
    · simp only [upsertStep, hm, if_neg h]
      push_neg at h
      rw [h]

theorem aget_foldl_upsert_not_mem (pods : KMap) (m : KMap) (k : Nat)
    (h : ∀ kv ∈ pods, kv.1 ≠ k) :
    aget (pods.foldl upsertStep m) k = aget m k := by
  induction pods generalizing m with
  | nil => rfl
  | cons kv rest ih =>
    rw [List.foldl_cons, ih _ (fun p hp => h p (List.mem_cons_of_mem kv hp))]
    exact aget_upsertStep_ne m kv k
      (fun e => h kv (List.mem_cons_self kv rest) e.symm)

theorem aget_foldl_upsert_mem (pods : KMap) (m : KMap) (k v : Nat)
    (hnodup : (akeys pods).Nodup) (hget : aget pods k = some v) :
    aget (pods.foldl upsertStep m) k = some v := by
  induction pods generalizing m with
  | nil => simp [aget] at hget
  | cons kv rest ih =>
    rw [aget_cons] at hget
    rw [List.foldl_cons]
    simp only [akeys, List.map_cons, List.nodup_cons] at hnodup
    by_cases h : kv.1 = k
    · subst h
      rw [if_pos (by simp)] at hget
      obtain rfl : kv.2 = v := Option.some.inj hget
      have hnot : ∀ p ∈ rest, p.1 ≠ kv.1 := fun p hp e =>
        hnodup.1 (e ▸ List.mem_map_of_mem (fun x => x.1) hp)
      rw [aget_foldl_upsert_not_mem rest (upsertStep m kv) kv.1 hnot]
      exact aget_upsertStep_self m kv
    · rw [if_neg (by simp [h])] at hget
      exact ih (upsertStep m kv) (by simpa [akeys] using hnodup.2) hget

theorem aget_foldl_remove_desired (pods : KMap) (ks : List Nat) (m : KMap)
    (k : Nat) (hk : (aget pods k).isSome) :
    aget (ks.foldl (removeStep pods) m) k = aget m k := by
  induction ks generalizing m with
  | nil => rfl
  | cons j rest ih =>
    rw [List.foldl_cons, ih]
    by_cases hj : (aget pods j).isSome
    · simp only [removeStep, if_pos hj]
    · simp only [removeStep, if_neg hj]
      exact aget_aremove_ne m j k (fun e => hj (e ▸ hk))

theorem aget_foldl_remove_none (pods : KMap) (ks : List Nat) (m : KMap)
    (k : Nat) (hm : aget m k = none) :
    aget (ks.foldl (removeStep pods) m) k = none := by
  induction ks generalizing m with
  | nil => exact hm
  | cons j rest ih =>
    rw [List.foldl_cons]
    refine ih _ ?_
    by_cases hj : (aget pods j).isSome
    · simp only [removeStep, if_pos hj]
      exact hm
    · simp only [removeStep, if_neg hj]
      by_cases hjk : k = j
      · rw [hjk]; exact aget_aremove_self m j
      · rw [aget_aremove_ne m j k hjk]; exact hm

theorem aget_foldl_remove_stale (pods : KMap) (ks : List Nat) (m : KMap)
    (k : Nat) (hk : aget pods k = none) (hmem : k ∈ ks) :
    aget (ks.foldl (removeStep pods) m) k = none := by
  induction ks generalizing m with
  | nil => cases hmem
  | cons j rest ih =>
    rw [List.foldl_cons]
    by_cases hjk : j = k
    · refine aget_foldl_remove_none pods rest _ k ?_
      simp only [removeStep, hjk, if_neg (by rw [hk]; simp : ¬ (aget pods k).isSome = true)]
      exact aget_aremove_self m k
    · rcases List.mem_cons.mp hmem with h | h
      · exact absurd h.symm hjk
      · exact ih _ h

theorem aget_isSome_of_mem_akeys {κ β : Type} [BEq κ] [LawfulBEq κ]
    (r : List (κ × β)) (k : κ) (h : k ∈ akeys r) : (aget r k).isSome := by
  induction r with
  | nil => simp [akeys] at h
  | cons p rest ih =>
    rw [aget_cons]
    by_cases hp : p.1 = k
    · rw [if_pos (by simp [hp])]; rfl
    · rw [if_neg (by simp [hp])]
      refine ih ?_
      simp only [akeys, List.map_cons, List.mem_cons] at h
      rcases h with h | h
      · exact absurd h.symm hp
      · simpa [akeys] using h

theorem akeys_buildPodIps (snap : List (Nat × ServiceData)) :
    akeys (buildPodIps snap) = akeys snap := by
  induction snap with
  | nil => rfl
  | cons p rest ih => simp [buildPodIps, akeys]

theorem aget_buildPodIps (snap : List (Nat × ServiceData)) (k : Nat) :
    aget (buildPodIps snap) k =
      (aget snap k).map (fun sd => if sd.backend_available then 1 else 0) := by
  induction snap with
  | nil => rfl
  | cons p rest ih =>
    rw [buildPodIps, List.map_cons, aget_cons, aget_cons]
    by_cases h : p.1 = k
    · have hb : (p.1 == k) = true := by simp [h]
      simp [hb]
    · have hb : (p.1 == k) = false := by simp [h]
      simp only [buildPodIps] at ih
      simp [hb, ih]

/-- C7: after one `sync_data` pass over a registry snapshot `snap`, the
kernel map's lookup function agrees exactly with
`{u32(ip) ↦ backend_available as u32 : ip ∈ keys(snap)}`: desired pairs
were upserted, and every key not derived from the snapshot was removed. -/
theorem C7_sync_data_exact (snap : List (Nat × ServiceData)) (m : KMap)
    (hnodup : (akeys snap).Nodup) :
    ∀ k, aget (sync_data snap m) k =
        (aget snap k).map (fun sd => if sd.backend_available then 1 else 0) ∧
      ((aget (sync_data snap m) k).isSome ↔ k ∈ akeys snap) := by
  intro k
  have hnodup' : (akeys (buildPodIps snap)).Nodup := by
    rw [akeys_buildPodIps]; exact hnodup
  have hmain : aget (sync_data snap m) k = aget (buildPodIps snap) k := by
    unfold sync_data
    cases hp : aget (buildPodIps snap) k with
    | some v =>
      rw [aget_foldl_remove_desired _ _ _ k (by rw [hp]; rfl)]
      exact aget_foldl_upsert_mem _ m k v hnodup' hp
    | none =>
      cases hm1 : aget ((buildPodIps snap).foldl upsertStep m) k with
      | none => exact aget_foldl_remove_none _ _ _ k hm1
      | some w =>
        exact aget_foldl_remove_stale _ _ _ k hp
          (mem_akeys_of_aget_isSome _ k (by rw [hm1]; rfl))
  constructor
  · rw [hmain]
    exact aget_buildPodIps snap k
  · rw [hmain, aget_buildPodIps snap k]
    constructor
    · intro h
      exact mem_akeys_of_aget_isSome snap k (by
        cases hs : aget snap k with
        | none => rw [hs] at h; simp at h
        | some sd => rfl)
    · intro h
      cases hs : aget snap k with
      | none =>
        exact absurd (aget_isSome_of_mem_akeys snap k h) (by rw [hs]; simp)
      | some sd => rfl

/-- Concrete inputs for the C7 witness: one available and one unavailable
service, a kernel map holding one mismatched and one stale key. -/
def c7SnapUp : ServiceData :=
  ⟨60, 0, "deployment", "a", "default", true, [], [], false, none, false, none, 50⟩

def c7SnapDown : ServiceData := { c7SnapUp with name := "b", backend_available := false }

def c7Snap : List (Nat × ServiceData) := [(167772161, c7SnapUp), (167772162, c7SnapDown)]

def c7KMap : KMap := [(167772161, 0), (99, 1)]

/-- Witness for C7 at the concrete snapshot and kernel map above. -/
theorem C7_sync_data_exact_witness :
    aget (sync_data c7Snap c7KMap) 167772161 = some 1 ∧
    aget (sync_data c7Snap c7KMap) 167772162 = some 0 ∧
    aget (sync_data c7Snap c7KMap) 99 = none := by
  refine ⟨?_, ?_, ?_⟩
  · rw [(C7_sync_data_exact c7Snap c7KMap (by decide) 167772161).1]; rfl
  · rw [(C7_sync_data_exact c7Snap c7KMap (by decide) 167772162).1]; rfl
  · rw [(C7_sync_data_exact c7Snap c7KMap (by decide) 99).1]; rfl

/-! ## HPA suspension controller (src/testapp/src/kubernetes/hpa_controller.rs)

The `autoscaling/v2` objects are modelled with the fields the controller
reads and writes.  `serde_json::to_string` / `from_str` are external
library calls; they are passed in as an encoder/decoder pair satisfying
serde's round-trip contract (`from_str(to_string(x)) = Ok(x)`). -/

/-- `autoscaling/v2` `MetricTarget` (the fields the controller touches). -/
structure MetricTarget where
  type_ : String
  average_utilization : Option Int
deriving DecidableEq, Repr

/-- `autoscaling/v2` `ResourceMetricSource`. -/
structure ResourceMetricSource where
  name : String
  target : MetricTarget
deriving DecidableEq, Repr

/-- `autoscaling/v2` `MetricSpec` (a `Resource` metric or some other
variant). -/
structure MetricSpec where
  type_ : String
  resource : Option ResourceMetricSource
deriving DecidableEq, Repr

/-- `autoscaling/v2` `HPAScalingRules` (representative fields). -/
structure HPAScalingRules where
  stabilization_window_seconds : Option Int
  select_policy : Option String
deriving DecidableEq, Repr

/-- `autoscaling/v2` `HorizontalPodAutoscalerBehavior`. -/
structure HPABehavior where
  scale_down : Option HPAScalingRules
  scale_up : Option HPAScalingRules
deriving DecidableEq, Repr

/-- `autoscaling/v2` `HorizontalPodAutoscalerSpec` with the
`scale_target_ref` `CrossVersionObjectReference` flattened into three
fields. -/
structure HPASpec where
  scale_target_ref_api_version : Option String
  scale_target_ref_kind : String
  scale_target_ref_name : String
  min_replicas : Option Int
  max_replicas : Int
  metrics : Option (List MetricSpec)
  behavior : Option HPABehavior
deriving DecidableEq, Repr

/-- The CPU-target extraction of `delete_hpa` (hpa_controller.rs lines
44-50): the `average_utilization` of the first `Resource` metric whose
resource name is `cpu`. -/
def cpuTargetOfMetrics (ms : Option (List MetricSpec)) : Option Int :=
  ((ms.bind (fun metrics => metrics.find? (fun mtr =>
      mtr.type_ == "Resource" &&
        ((mtr.resource.map (fun r => r.name == "cpu")).getD false)))).bind
    (fun mtr => mtr.resource)).bind
    (fun resource => resource.target.average_utilization)

/-- The configuration capture of `delete_hpa` (lines 39-77): extract
min/max replicas and the CPU target, serialize the `metrics` and
`behavior` arrays verbatim; a spec-less object yields the default
configuration. -/
def capture_hpa_config (encM : List MetricSpec → String)
    (encB : HPABehavior → String) (spec : Option HPASpec) : HPAConfig :=
  match spec with
  | some sp =>
    { min_replicas := sp.min_replicas
      max_replicas := sp.max_replicas
      target_cpu_utilization_percentage := cpuTargetOfMetrics sp.metrics
      metrics := sp.metrics.map encM
      behavior := sp.behavior.map encB }
  | none =>
    { min_replicas := some 1
      max_replicas := 5
      target_cpu_utilization_percentage := some 80
      metrics := none
      behavior := none }

/-- The spec construction of `recreate_hpa` (lines 110-152): target ref to
the deployment, min/max from the config, a synthesized CPU `Resource`
metric when a CPU target is present, then the parsed custom `metrics` /
`behavior` overlaid when their stored JSON parses. -/
def build_recreated_spec (decM : String → Option (List MetricSpec))
    (decB : String → Option HPABehavior) (deployment_name : String)
    (cfg : HPAConfig) : HPASpec :=
  let base : HPASpec :=
    { scale_target_ref_api_version := some "apps/v1"
      scale_target_ref_kind := "Deployment"
      scale_target_ref_name := deployment_name
      min_replicas := cfg.min_replicas
      max_replicas := cfg.max_replicas
      metrics := none
      behavior := none }
  let withCpu :=
    match cfg.target_cpu_utilization_percentage with
    | some cpu_target =>
      let cpu_metric : MetricSpec :=
        ⟨"Resource", some ⟨"cpu", ⟨"Utilization", some cpu_target⟩⟩⟩
      { base with metrics := some [cpu_metric] }
    | none => base
  let withMetrics :=
    match cfg.metrics with
    | some metrics_json =>
      match decM metrics_json with
      | some custom_metrics => { withCpu with metrics := some custom_metrics }
      | none => withCpu
    | none => withCpu
  match cfg.behavior with
  | some behavior_json =>
    match decB behavior_json with
    | some b => { withMetrics with behavior := some b }
    | none => withMetrics
  | none => withMetrics

/-- C9: for an autoscaler that has a spec, the `HPAConfig` captured by
`delete_hpa` and replayed through `recreate_hpa` reproduces
`min_replicas`, `max_replicas` and the CPU target exactly, and the
recreated `metrics` / `behavior` arrays serialize back to exactly the
captured JSON payloads, for any serializer pair satisfying serde's
round-trip contract. -/
theorem C9_hpa_config_roundtrip
    (encM : List MetricSpec → String) (decM : String → Option (List MetricSpec))
    (encB : HPABehavior → String) (decB : String → Option HPABehavior)
    (hM : ∀ x, decM (encM x) = some x) (hB : ∀ x, decB (encB x) = some x)
    (sp : HPASpec) (deployment_name : String) :
    (build_recreated_spec decM decB deployment_name
        (capture_hpa_config encM encB (some sp))).min_replicas = sp.min_replicas ∧
    (build_recreated_spec decM decB deployment_name
        (capture_hpa_config encM encB (some sp))).max_replicas = sp.max_replicas ∧
    cpuTargetOfMetrics (build_recreated_spec decM decB deployment_name
        (capture_hpa_config encM encB (some sp))).metrics =
      cpuTargetOfMetrics sp.metrics ∧
    (build_recreated_spec decM decB deployment_name
        (capture_hpa_config encM encB (some sp))).metrics.map encM =
      (capture_hpa_config encM encB (some sp)).metrics ∧
    (build_recreated_spec decM decB deployment_name
        (capture_hpa_config encM encB (some sp))).behavior.map encB =
      (capture_hpa_config encM encB (some sp)).behavior := by
  have hmet : (build_recreated_spec decM decB deployment_name
      (capture_hpa_config encM encB (some sp))).metrics = sp.metrics := by
    cases hms : sp.metrics with
    | none =>
      cases hb : sp.behavior <;>
        simp [build_recreated_spec, capture_hpa_config, cpuTargetOfMetrics, hms, hb, hB]
    | some ms =>
      cases hb : sp.behavior <;>
        cases hcpu : cpuTargetOfMetrics (some ms) <;>
          simp [build_recreated_spec, capture_hpa_config, hms, hb, hcpu, hM, hB]
  have hbeh : (build_recreated_spec decM decB deployment_name
      (capture_hpa_config encM encB (some sp))).behavior = sp.behavior := by
    cases hms : sp.metrics with
    | none =>
      cases hbs : sp.behavior <;>
        simp [build_recreated_spec, capture_hpa_config, cpuTargetOfMetrics, hms, hbs, hM, hB]
    | some ms =>
      cases hbs : sp.behavior <;>
        cases hcpu : cpuTargetOfMetrics (some ms) <;>
          simp [build_recreated_spec, capture_hpa_config, hms, hbs, hcpu, hM, hB]
  have hmin : (build_recreated_spec decM decB deployment_name
      (capture_hpa_config encM encB (some sp))).min_replicas = sp.min_replicas := by
    cases hms : sp.metrics with
    | none =>
      cases hbs : sp.behavior <;>
        simp [build_recreated_spec, capture_hpa_config, cpuTargetOfMetrics, hms, hbs, hM, hB]
    | some ms =>
      cases hbs : sp.behavior <;>
        cases hcpu : cpuTargetOfMetrics (some ms) <;>
          simp [build_recreated_spec, capture_hpa_config, hms, hbs, hcpu, hM, hB]
  have hmax : (build_recreated_spec decM decB deployment_name
      (capture_hpa_config encM encB (some sp))).max_replicas = sp.max_replicas := by
    cases hms : sp.metrics with
    | none =>
      cases hbs : sp.behavior <;>
        simp [build_recreated_spec, capture_hpa_config, cpuTargetOfMetrics, hms, hbs, hM, hB]
    | some ms =>
      cases hbs : sp.behavior <;>
        cases hcpu : cpuTargetOfMetrics (some ms) <;>
          simp [build_recreated_spec, capture_hpa_config, hms, hbs, hcpu, hM, hB]
  refine ⟨hmin, hmax, ?_, ?_, ?_⟩
  · rw [hmet]
  · rw [hmet]
    simp [capture_hpa_config]
  · rw [hbeh]
    simp [capture_hpa_config]

/-! ### A concrete serializer pair satisfying serde's round-trip contract

Used to instantiate the C9 round-trip theorem at concrete inputs: an
injective encoding of the metric / behavior payloads into `Nat` (via
`Nat.pair`) rendered as a string, together with its computable inverse. -/

def encListNat : List Nat → Nat
  | [] => 0
  | n :: rest => Nat.pair n (encListNat rest) + 1

def decListNat : Nat → Option (List Nat)
  | 0 => some []
  | m + 1 =>
    match decListNat (Nat.unpair m).2 with
    | some rest => some ((Nat.unpair m).1 :: rest)
    | none => none
  decreasing_by exact Nat.lt_succ_of_le (Nat.unpair_right_le m)

theorem decListNat_enc : ∀ xs, decListNat (encListNat xs) = some xs := by
  intro xs
  induction xs with
  | nil => simp [encListNat, decListNat]
  | cons x rest ih => simp [encListNat, decListNat, Nat.unpair_pair, ih]

def encOptN {α : Type} (e : α → Nat) : Option α → Nat
  | none => 0
  | some a => e a + 1

def decOptN {α : Type} (d : Nat → Option α) : Nat → Option (Option α)
  | 0 => some none
  | n + 1 => (d n).map some

theorem decOptN_enc {α : Type} (e : α → Nat) (d : Nat → Option α)
    (h : ∀ a, d (e a) = some a) : ∀ o, decOptN d (encOptN e o) = some o := by
  intro o
  cases o <;> simp [encOptN, decOptN, h]

def encIntN : Int → Nat
  | .ofNat n => 2 * n
  | .negSucc n => 2 * n + 1

def decIntN (n : Nat) : Option Int :=
  if n % 2 = 0 then some (Int.ofNat (n / 2)) else some (Int.negSucc (n / 2))

theorem decIntN_enc : ∀ i, decIntN (encIntN i) = some i := by
  intro i
  cases i with
  | ofNat n =>
    have h1 : (2 * n) % 2 = 0 := by omega
    have h2 : (2 * n) / 2 = n := by omega
    simp [encIntN, decIntN, h1, h2]
  | negSucc n =>
    have h1 : ¬ ((2 * n + 1) % 2 = 0) := by omega
    have h2 : (2 * n + 1) / 2 = n := by omega
    simp [encIntN, decIntN, h1, h2]

def encStringN (s : String) : Nat := encListNat (s.data.map Char.toNat)

def decStringN (n : Nat) : Option String :=
  (decListNat n).map (fun l => { data := l.map Char.ofNat })

theorem decStringN_enc (s : String) : decStringN (encStringN s) = some s := by
  cases s with
  | mk data =>
    have hco : (Char.ofNat ∘ Char.toNat) = id := funext Char.ofNat_toNat
    simp [decStringN, encStringN, decListNat_enc, List.map_map, hco]

def encMetricTargetN (t : MetricTarget) : Nat :=
  Nat.pair (encStringN t.type_) (encOptN encIntN t.average_utilization)

def decMetricTargetN (n : Nat) : Option MetricTarget :=
  match decStringN (Nat.unpair n).1, decOptN decIntN (Nat.unpair n).2 with
  | some a, some b => some ⟨a, b⟩
  | _, _ => none

theorem decMetricTargetN_enc (t : MetricTarget) :
    decMetricTargetN (encMetricTargetN t) = some t := by
  cases t
  simp [encMetricTargetN, decMetricTargetN, Nat.unpair_pair, decStringN_enc,
    decOptN_enc encIntN decIntN decIntN_enc]

def encResourceN (r : ResourceMetricSource) : Nat :=
  Nat.pair (encStringN r.name) (encMetricTargetN r.target)

def decResourceN (n : Nat) : Option ResourceMetricSource :=
  match decStringN (Nat.unpair n).1, decMetricTargetN (Nat.unpair n).2 with
  | some a, some b => some ⟨a, b⟩
  | _, _ => none

theorem decResourceN_enc (r : ResourceMetricSource) :
    decResourceN (encResourceN r) = some r := by
  cases r
  simp [encResourceN, decResourceN, Nat.unpair_pair, decStringN_enc,
    decMetricTargetN_enc]

def encMetricSpecN (m : MetricSpec) : Nat :=
  Nat.pair (encStringN m.type_) (encOptN encResourceN m.resource)

def decMetricSpecN (n : Nat) : Option MetricSpec :=
  match decStringN (Nat.unpair n).1, decOptN decResourceN (Nat.unpair n).2 with
  | some a, some b => some ⟨a, b⟩
  | _, _ => none

theorem decMetricSpecN_enc (m : MetricSpec) :
    decMetricSpecN (encMetricSpecN m) = some m := by
  cases m
  simp [encMetricSpecN, decMetricSpecN, Nat.unpair_pair, decStringN_enc,
    decOptN_enc encResourceN decResourceN decResourceN_enc]

def decEach {α : Type} (d : Nat → Option α) : List Nat → Option (List α)
  | [] => some []
  | n :: rest =>
    match d n, decEach d rest with
    | some a, some as => some (a :: as)
    | _, _ => none

theorem decEach_map_enc {α : Type} (e : α → Nat) (d : Nat → Option α)
    (h : ∀ a, d (e a) = some a) : ∀ xs, decEach d (xs.map e) = some xs := by
  intro xs
  induction xs with
  | nil => rfl
  | cons x rest ih => simp [decEach, h, ih]

def encScalingRulesN (r : HPAScalingRules) : Nat :=
  Nat.pair (encOptN encIntN r.stabilization_window_seconds)
    (encOptN encStringN r.select_policy)

def decScalingRulesN (n : Nat) : Option HPAScalingRules :=
  match decOptN decIntN (Nat.unpair n).1, decOptN decStringN (Nat.unpair n).2 with
  | some a, some b => some ⟨a, b⟩
  | _, _ => none

theorem decScalingRulesN_enc (r : HPAScalingRules) :
    decScalingRulesN (encScalingRulesN r) = some r := by
  cases r
  simp [encScalingRulesN, decScalingRulesN, Nat.unpair_pair,
    decOptN_enc encIntN decIntN decIntN_enc,
    decOptN_enc encStringN decStringN decStringN_enc]

/-- The stand-in for `serde_json::to_string` on the `metrics` array. -/
def serializeMetrics (ms : List MetricSpec) : String :=
  { data := List.replicate (encListNat (ms.map encMetricSpecN)) 'a' }

/-- The stand-in for `serde_json::from_str` on the `metrics` array. -/
def deserializeMetrics (s : String) : Option (List MetricSpec) :=
  (decListNat s.data.length).bind (decEach decMetricSpecN)

theorem deserializeMetrics_roundtrip (ms : List MetricSpec) :
    deserializeMetrics (serializeMetrics ms) = some ms := by
  simp [deserializeMetrics, serializeMetrics, decListNat_enc,
    decEach_map_enc encMetricSpecN decMetricSpecN decMetricSpecN_enc]

/-- The stand-in for `serde_json::to_string` on `behavior`. -/
def serializeBehavior (b : HPABehavior) : String :=
  { data := List.replicate
      (Nat.pair (encOptN encScalingRulesN b.scale_down)
        (encOptN encScalingRulesN b.scale_up)) 'a' }

/-- The stand-in for `serde_json::from_str` on `behavior`. -/
def deserializeBehavior (s : String) : Option HPABehavior :=
  match decOptN decScalingRulesN (Nat.unpair s.data.length).1,
      decOptN decScalingRulesN (Nat.unpair s.data.length).2 with
  | some a, some b => some ⟨a, b⟩
  | _, _ => none

theorem deserializeBehavior_roundtrip (b : HPABehavior) :
    deserializeBehavior (serializeBehavior b) = some b := by
  cases b
  simp [deserializeBehavior, serializeBehavior, Nat.unpair_pair,
    decOptN_enc encScalingRulesN decScalingRulesN decScalingRulesN_enc]

/-- A concrete autoscaler spec for the C9 witness. -/
def c9Spec : HPASpec :=
  { scale_target_ref_api_version := some "apps/v1"
    scale_target_ref_kind := "Deployment"
    scale_target_ref_name := "app"
    min_replicas := some 2
    max_replicas := 7
    metrics := some [⟨"Resource", some ⟨"cpu", ⟨"Utilization", some 75⟩⟩⟩]
    behavior := some ⟨some ⟨some 300, some "Max"⟩, none⟩ }

/-- Witness for C9: the round trip at `c9Spec` under the concrete
serializer pair. -/
theorem C9_hpa_config_roundtrip_witness :
    (build_recreated_spec deserializeMetrics deserializeBehavior "app"
        (capture_hpa_config serializeMetrics serializeBehavior (some c9Spec))).min_replicas =
      some 2 ∧
    (build_recreated_spec deserializeMetrics deserializeBehavior "app"
        (capture_hpa_config serializeMetrics serializeBehavior (some c9Spec))).max_replicas =
      7 ∧
    cpuTargetOfMetrics (build_recreated_spec deserializeMetrics deserializeBehavior "app"
        (capture_hpa_config serializeMetrics serializeBehavior (some c9Spec))).metrics =
      some 75 := by
  have h := C9_hpa_config_roundtrip serializeMetrics deserializeMetrics
    serializeBehavior deserializeBehavior
    deserializeMetrics_roundtrip deserializeBehavior_roundtrip c9Spec "app"
  refine ⟨h.1, h.2.1, ?_⟩
  rw [h.2.2.1]
  rfl

end ScaleToZero
